import Mathlib

/-!
Verification development for the sysfs PWM access library (blocking variant
in pwm.rs, non-blocking variant in pwm_async.rs).  The I/O layer is embedded
shallowly: file contents are `String` arguments, filesystem probes and the
outcomes of fallible OS calls are explicit oracle parameters, and the
operations performed by a function are returned as an event trace.
-/

set_option maxRecDepth 10000

/-- Modelled from the spec: the failure type of the common module (common.rs is
not in the tree).  `io` wraps an OS-reported failure (NotFound / IoFailure);
`unexpected` is the Error::Unexpected variant the source uses for decode
failures and for the aggregate failure of the scoped-export helper. -/
inductive Error
  | io (msg : String)
  | unexpected (msg : String)
deriving DecidableEq, Repr

/-- Modelled from the spec: the textual rendering of a failure (the Display
implementation lives in the missing common.rs); it exposes the carried
message. -/
def Error.display : Error → String
  | .io m => m
  | .unexpected m => m

/-- Modelled from the spec: polarity of the PWM signal, enumerated
  as Normal or Inverse (the enum itself lives in the missing common.rs). -/
inductive Polarity
  | Normal
  | Inverse
deriving DecidableEq, Repr

/-- Outcome of an operation that can also diverge: the Rust source can return
`Ok`, return `Err`, or `panic!`, and the panic is observably distinct from a
returned error. -/
inductive Outcome (α : Type)
  | ok (a : α)
  | err (e : Error)
  | panicked (msg : String)
deriving DecidableEq, Repr

/-- The characters Rust char::is_whitespace accepts (the Unicode White_Space
set), used by str::trim and str::split_whitespace. -/
def isRustWhitespace (c : Char) : Bool :=
  c.toNat = 0x09 || c.toNat = 0x0A || c.toNat = 0x0B || c.toNat = 0x0C ||
  c.toNat = 0x0D || c.toNat = 0x20 || c.toNat = 0x85 || c.toNat = 0xA0 ||
  c.toNat = 0x1680 || (0x2000 ≤ c.toNat && c.toNat ≤ 0x200A) ||
  c.toNat = 0x2028 || c.toNat = 0x2029 || c.toNat = 0x202F ||
  c.toNat = 0x205F || c.toNat = 0x3000

/-- ASCII decimal digit test, as used byte-wise by Rust u32::from_str. -/
def isDigitChar (c : Char) : Bool :=
  48 ≤ c.toNat && c.toNat ≤ 57

/-- str::trim on the character list: drop whitespace from both ends. -/
def rustTrimList (cs : List Char) : List Char :=
  ((cs.dropWhile isRustWhitespace).reverse.dropWhile isRustWhitespace).reverse

/-- str::trim. -/
def rustTrim (s : String) : String :=
  ⟨rustTrimList s.data⟩

/-- Accumulator for str::split_whitespace: split into maximal runs of
non-whitespace characters, dropping all whitespace. -/
def splitWSAux : List Char → List Char → List String
  | [], acc => if acc = [] then [] else [⟨acc.reverse⟩]
  | c :: rest, acc =>
    if isRustWhitespace c then
      if acc = [] then splitWSAux rest []
      else ⟨acc.reverse⟩ :: splitWSAux rest []
    else splitWSAux rest (c :: acc)

/-- str::split_whitespace. -/
def splitWhitespaceRust (s : String) : List String :=
  splitWSAux s.data []

/-- Digit-accumulation loop of u32::from_str: consume decimal digits,
failing on a non-digit or when the accumulated value leaves the u32 range. -/
def parseU32Core : List Char → Nat → Option Nat
  | [], acc => some acc
  | c :: rest, acc =>
    if isDigitChar c then
      let acc' := acc * 10 + (c.toNat - 48)
      if acc' < 2 ^ 32 then parseU32Core rest acc' else none
    else none

/-- u32::from_str on the character list: an optional leading plus sign
followed by at least one decimal digit, value within the u32 range; anything
else fails. -/
def parseU32List : List Char → Option Nat
  | [] => none
  | c :: rest =>
    if c = '+' then
      if rest = [] then none else parseU32Core rest 0
    else parseU32Core (c :: rest) 0

/-- u32::from_str. -/
def parseU32 (s : String) : Option Nat :=
  parseU32List s.data

/-- The sign-stripping step of u32::from_str: one leading plus sign is
removed before the digit loop runs. -/
def stripPlusList (cs : List Char) : List Char :=
  match cs with
  | [] => []
  | c :: rest => if c = '+' then rest else c :: rest

/-- Fuel-driven digit emitter behind natToDecimal; the fuel strictly bounds
the value, so the zero-fuel branch is never reached from natToDecimal. -/
def natToDecimalAux : Nat → Nat → List Char
  | 0, _ => []
  | fuel + 1, n =>
    if n < 10 then [Char.ofNat (48 + n)]
    else natToDecimalAux fuel (n / 10) ++ [Char.ofNat (48 + n % 10)]

/-- Decimal digit list of a natural number (the Display / to_string encoding
of Rust unsigned integers: plain decimal, no sign, no leading zeros). -/
def natToDecimal (n : Nat) : List Char :=
  natToDecimalAux (n + 1) n

/-- u32 to_string: decimal text. -/
def u32ToString (n : Nat) : String :=
  ⟨natToDecimal n⟩

/-- Value of a digit list read left to right in base 10 (the reference
semantics the parser is compared against). -/
def digitsToNat (ds : List Char) : Nat :=
  ds.foldl (fun a c => a * 10 + (c.toNat - 48)) 0

/-- Rust Debug formatting of a string as it appears inside the error messages
built with the {:?} format specifier: the content between double quotes with
the common escapes applied. -/
def rustDebugChar (c : Char) : String :=
  if c = '"' then "\\\""
  else if c = '\\' then "\\\\"
  else if c = '\n' then "\\n"
  else if c = '\t' then "\\t"
  else if c = '\r' then "\\r"
  else String.singleton c

/-- Rust Debug formatting of a whole string. -/
def rustDebug (s : String) : String :=
  "\"" ++ String.join (s.data.map rustDebugChar) ++ "\""

/-- pwmchip directory path for a chip number (pwm.rs path formatting). -/
def chipPath (chip : Nat) : String :=
  "/sys/class/pwm/pwmchip" ++ u32ToString chip

/-- Channel attribute directory path pwmchipN/pwmM. -/
def channelPath (chip number : Nat) : String :=
  chipPath chip ++ "/pwm" ++ u32ToString number

/-- pwm_file_parse of pwm.rs: read the attribute content, trim it and parse it
as u32, a failed parse becoming Error::Unexpected with the raw content in the
message.  The async pwm_file_parse of pwm_async.rs performs the same trim,
parse and message construction. -/
def pwm_file_parse (content : String) : Except Error Nat :=
  match parseU32 (rustTrim content) with
  | some r => .ok r
  | none => .error (.unexpected ("Unexpeted value file contents: " ++ rustDebug content))

/-- The push loop of pwm_file_parse_vec: keep the tokens that parse as u32,
in order, silently dropping the rest. -/
def parseVecLoop : List String → List Nat
  | [] => []
  | s :: rest =>
    match parseU32 s with
    | some j => j :: parseVecLoop rest
    | none => parseVecLoop rest

/-- pwm_file_parse_vec of pwm.rs: trim the content, split on whitespace and
keep the tokens that parse.  pwm_capture_parse of pwm_async.rs is the same
computation. -/
def pwm_file_parse_vec (content : String) : List Nat :=
  parseVecLoop (splitWhitespaceRust (rustTrim content))

/-- Pwm::get_capture (pwm.rs) on the capture file content: exactly two
surviving tokens give the pair, any other count is the Unexpected error the
source labels "Failed exporting".  PwmAsync::get_capture is identical on top
of pwm_capture_parse. -/
def Pwm.get_capture (content : String) : Except Error (Nat × Nat) :=
  let t := pwm_file_parse_vec content
  match t with
  | [a, b] => .ok (a, b)
  | _ => .error (.unexpected "Failed exporting")

/-- Pwm::get_enabled (pwm.rs) on the enable file content: "1" is true, "0" is
false, and any other trimmed content hits the panic branch of the source. -/
def Pwm.get_enabled (content : String) : Outcome Bool :=
  if rustTrim content = "1" then .ok true
  else if rustTrim content = "0" then .ok false
  else .panicked "enable != 1|0 should be unreachable"

/-- PwmAsync::get_enabled (pwm_async.rs): parse the content as u32 through the
async pwm_file_parse (trim then parse, Unexpected on failure), then map 1 to
true, 0 to false, and any other parsed value to the panic branch. -/
def PwmAsync.get_enabled (content : String) : Outcome Bool :=
  match parseU32 (rustTrim content) with
  | none => .err (.unexpected ("Unexpeted value file contents: " ++ rustDebug content))
  | some 1 => .ok true
  | some 0 => .ok false
  | some _ => .panicked "enable != 1|0 should be unreachable"

/-- Pwm::get_period_ns (pwm.rs): pwm_file_parse of the period file. -/
def Pwm.get_period_ns (content : String) : Except Error Nat :=
  pwm_file_parse content

/-- Pwm::get_duty_cycle_ns (pwm.rs): pwm_file_parse of the duty_cycle file. -/
def Pwm.get_duty_cycle_ns (content : String) : Except Error Nat :=
  pwm_file_parse content

/-- The text Pwm::set_period_ns writes to the period file:
period_ns.to_string(). -/
def Pwm.set_period_ns_data (period_ns : Nat) : String :=
  u32ToString period_ns

/-- The text Pwm::set_duty_cycle_ns writes to the duty_cycle file:
duty_cycle_ns.to_string(). -/
def Pwm.set_duty_cycle_ns_data (duty_cycle_ns : Nat) : String :=
  u32ToString duty_cycle_ns

/-- The text Pwm::set_polarity (pwm.rs) writes to the polarity file; the
async variant writes the same byte strings. -/
def Pwm.set_polarity_data : Polarity → String
  | .Normal => "normal"
  | .Inverse => "inversed"

/-- Pwm::get_polarity (pwm.rs) on the polarity file content. -/
def Pwm.get_polarity (content : String) : Except Error Polarity :=
  if rustTrim content = "normal" then .ok .Normal
  else if rustTrim content = "inversed" then .ok .Inverse
  else .error (.unexpected ("Unexpected polarity file contents: " ++ rustDebug content))

/-- PwmAsync::get_polarity (pwm_async.rs): same trim and match as the
blocking variant. -/
def PwmAsync.get_polarity (content : String) : Except Error Polarity :=
  if rustTrim content = "normal" then .ok .Normal
  else if rustTrim content = "inversed" then .ok .Inverse
  else .error (.unexpected ("Unexpected polarity file contents: " ++ rustDebug content))

/-- PwmChip::count (pwm.rs) on the npwm file content: trim, then parse as
u32, with the Unexpected npwm error on failure. -/
def PwmChip.count (content : String) : Except Error Nat :=
  match parseU32 (rustTrim content) with
  | some n => .ok n
  | none => .error (.unexpected ("Unexpected npwm contents: " ++ rustDebug content))

/-- PwmChipAsync::count (pwm_async.rs) on the npwm file content: the raw
content is parsed without trimming. -/
def PwmChipAsync.count (content : String) : Except Error Nat :=
  match parseU32 content with
  | some n => .ok n
  | none => .error (.unexpected ("Unexpected npwm contents: " ++ rustDebug content))

/-- Filesystem operations a chip-level call performs, in order: an existence
probe (fs::metadata), the creation of a control file handle (File::create),
or a write of text to a control file (write_all). -/
inductive FsEvent
  | probe (path : String)
  | create (path : String)
  | write (path : String) (data : String)
deriving DecidableEq, Repr

/-- Oracle for one export/unexport call: whether the channel attribute
directory pwmchipN/pwmM currently exists, and the outcomes the OS gives to
File::create and write_all on the control file. -/
structure ExportFs where
  channelDirExists : Bool
  createRes : Except Error Unit
  writeRes : Except Error Unit

/-- PwmChip::export (pwm.rs): probe the channel directory; if it exists,
succeed without touching the export file; otherwise create the chip export
control file and write the channel number as decimal text, propagating either
failure. -/
def PwmChip.exportFn (chip number : Nat) (fs : ExportFs) :
    Except Error Unit × List FsEvent :=
  if fs.channelDirExists then (.ok (), [.probe (channelPath chip number)])
  else
    match fs.createRes with
    | .error e => (.error e, [.probe (channelPath chip number), .create (chipPath chip ++ "/export")])
    | .ok () =>
      (fs.writeRes,
       [.probe (channelPath chip number), .create (chipPath chip ++ "/export"),
        .write (chipPath chip ++ "/export") (u32ToString number)])

/-- PwmChip::unexport (pwm.rs): probe the channel directory; if it does not
exist, succeed without touching the unexport file; otherwise create the chip
unexport control file and write the channel number as decimal text. -/
def PwmChip.unexportFn (chip number : Nat) (fs : ExportFs) :
    Except Error Unit × List FsEvent :=
  if fs.channelDirExists then
    match fs.createRes with
    | .error e => (.error e, [.probe (channelPath chip number), .create (chipPath chip ++ "/unexport")])
    | .ok () =>
      (fs.writeRes,
       [.probe (channelPath chip number), .create (chipPath chip ++ "/unexport"),
        .write (chipPath chip ++ "/unexport") (u32ToString number)])
  else (.ok (), [.probe (channelPath chip number)])

/-- PwmChipAsync::export (pwm_async.rs): like the blocking export, except
that the result of write_all (and of sync_all) is discarded, so only a
File::create failure is reported. -/
def PwmChipAsync.exportFn (chip number : Nat) (fs : ExportFs) :
    Except Error Unit × List FsEvent :=
  if fs.channelDirExists then (.ok (), [.probe (channelPath chip number)])
  else
    match fs.createRes with
    | .error e => (.error e, [.probe (channelPath chip number), .create (chipPath chip ++ "/export")])
    | .ok () =>
      (.ok (),
       [.probe (channelPath chip number), .create (chipPath chip ++ "/export"),
        .write (chipPath chip ++ "/export") (u32ToString number)])

/-- PwmChipAsync::unexport (pwm_async.rs): like the blocking unexport with
the write_all result discarded. -/
def PwmChipAsync.unexportFn (chip number : Nat) (fs : ExportFs) :
    Except Error Unit × List FsEvent :=
  if fs.channelDirExists then
    match fs.createRes with
    | .error e => (.error e, [.probe (channelPath chip number), .create (chipPath chip ++ "/unexport")])
    | .ok () =>
      (.ok (),
       [.probe (channelPath chip number), .create (chipPath chip ++ "/unexport"),
        .write (chipPath chip ++ "/unexport") (u32ToString number)])
  else (.ok (), [.probe (channelPath chip number)])

/-- The PwmChip handle: just the chip number. -/
structure PwmChip where
  number : Nat
deriving DecidableEq, Repr

/-- The Pwm channel handle: an owned chip plus the channel number. -/
structure Pwm where
  chip : PwmChip
  number : Nat
deriving DecidableEq, Repr

/-- PwmChip::new (pwm.rs): fs::metadata on the chip directory, propagating
its failure, and otherwise returning the handle; no other I/O. -/
def PwmChip.newFn (number : Nat) (metadataRes : Except Error Unit) :
    Except Error PwmChip × List FsEvent :=
  match metadataRes with
  | .error e => (.error e, [.probe (chipPath number)])
  | .ok () => (.ok ⟨number⟩, [.probe (chipPath number)])

/-- Pwm::new (pwm.rs): build the PwmChip (one metadata probe of the chip
directory) and wrap it with the channel number; the channel number itself is
never inspected. -/
def Pwm.newFn (chip number : Nat) (metadataRes : Except Error Unit) :
    Except Error Pwm × List FsEvent :=
  match PwmChip.newFn chip metadataRes with
  | (.error e, tr) => (.error e, tr)
  | (.ok c, tr) => (.ok ⟨c, number⟩, tr)

/-- Steps of a with_exported run: the export call, the caller-supplied
closure, the unexport call. -/
inductive WEvent
  | exportEv
  | closureEv
  | unexportEv
deriving DecidableEq, Repr

/-- Pwm::with_exported (pwm.rs) over the outcomes of its three steps: export
first (its failure aborts the run), then the closure, then unexport on both
the success and the failure path of the closure; a failing closure keeps its
error unless unexport also fails, in which case the two failures are
aggregated into one Unexpected error.  The returned list records the steps
actually performed, in order. -/
def Pwm.with_exported (exportRes closureRes unexportRes : Except Error Unit) :
    Except Error Unit × List WEvent :=
  match exportRes with
  | .error e => (.error e, [.exportEv])
  | .ok () =>
    match closureRes with
    | .ok () => (unexportRes, [.exportEv, .closureEv, .unexportEv])
    | .error e =>
      match unexportRes with
      | .ok () => (.error e, [.exportEv, .closureEv, .unexportEv])
      | .error ue =>
        (.error (.unexpected ("Failed unexporting due to:\n" ++ Error.display ue ++
           "\nwhile handling:\n" ++ Error.display e)),
         [.exportEv, .closureEv, .unexportEv])

/-- PwmAsync::with_exported (pwm_async.rs): the same control flow as the
blocking variant (the closure result is bound to y first, then matched). -/
def PwmAsync.with_exported (exportRes closureRes unexportRes : Except Error Unit) :
    Except Error Unit × List WEvent :=
  match exportRes with
  | .error e => (.error e, [.exportEv])
  | .ok () =>
    let y := closureRes
    match y with
    | .ok () => (unexportRes, [.exportEv, .closureEv, .unexportEv])
    | .error e =>
      match unexportRes with
      | .ok () => (.error e, [.exportEv, .closureEv, .unexportEv])
      | .error ue =>
        (.error (.unexpected ("Failed unexporting due to:\n" ++ Error.display ue ++
           "\nwhile handling:\n" ++ Error.display e)),
         [.exportEv, .closureEv, .unexportEv])

/-! ## Helper lemmas -/

theorem parseVecLoop_eq_filterMap (l : List String) :
    parseVecLoop l = l.filterMap parseU32 := by
  induction l with
  | nil => rfl
  | cons s rest ih =>
    simp only [parseVecLoop, List.filterMap_cons]
    cases parseU32 s <;> simp [ih]

/-! ## Claims -/

/-- C1: on every with_exported run whose export step succeeds, unexport is
attempted on both the success and the failure path of the closure; a
succeeding closure makes the unexport result the overall result, a failing
closure keeps its own error when unexport succeeds, and when both fail a
single aggregated error names the unexport failure and the closure failure;
the async variant behaves identically. -/
theorem with_exported_scoped_release (c u e : Except Error Unit)
    (he : e = .ok ()) :
    WEvent.unexportEv ∈ (Pwm.with_exported e c u).2
    ∧ (c = .ok () → (Pwm.with_exported e c u).1 = u)
    ∧ (∀ ce, c = .error ce → u = .ok () → (Pwm.with_exported e c u).1 = .error ce)
    ∧ (∀ ce ue, c = .error ce → u = .error ue →
        (Pwm.with_exported e c u).1 =
          .error (.unexpected ("Failed unexporting due to:\n" ++ Error.display ue ++
            "\nwhile handling:\n" ++ Error.display ce)))
    ∧ PwmAsync.with_exported e c u = Pwm.with_exported e c u := by
  subst he
  obtain ⟨⟩ | ce := c <;> obtain ⟨⟩ | ue := u <;>
    refine ⟨by simp [Pwm.with_exported], ?_, ?_, ?_, rfl⟩ <;>
    intros <;> simp_all [Pwm.with_exported]

/-- Witness for C1 at concrete outcomes. -/
theorem with_exported_scoped_release_witness :
    (Pwm.with_exported (.ok ()) (.ok ()) (.ok ())).1 = .ok ()
    ∧ WEvent.unexportEv ∈ (Pwm.with_exported (.ok ()) (.ok ()) (.ok ())).2 := by
  have h := with_exported_scoped_release (.ok ()) (.ok ()) (.ok ()) rfl
  exact ⟨h.2.1 rfl, h.1⟩

/-- C10: when the initial export fails, with_exported returns that error
unchanged and performs neither the closure nor any unexport; likewise in the
async variant. -/
theorem with_exported_export_failure (c u : Except Error Unit) (e : Error) :
    Pwm.with_exported (.error e) c u = (.error e, [WEvent.exportEv])
    ∧ WEvent.closureEv ∉ (Pwm.with_exported (.error e) c u).2
    ∧ WEvent.unexportEv ∉ (Pwm.with_exported (.error e) c u).2
    ∧ PwmAsync.with_exported (.error e) c u = (.error e, [WEvent.exportEv]) := by
  refine ⟨rfl, ?_, ?_, rfl⟩ <;> simp [Pwm.with_exported]

/-- C2: export succeeds without writing to the export control file when the
channel directory already exists and otherwise writes the channel number as
decimal text to the chip export file; unexport symmetrically succeeds
without writing when the channel directory does not exist and otherwise
writes the channel number as decimal text to the chip unexport file; both
variants behave this way. -/
theorem export_unexport_idempotent (chip number : Nat) (fs : ExportFs) :
    (fs.channelDirExists = true →
      (PwmChip.exportFn chip number fs).1 = .ok ()
      ∧ (∀ p d, FsEvent.write p d ∉ (PwmChip.exportFn chip number fs).2)
      ∧ (PwmChipAsync.exportFn chip number fs).1 = .ok ()
      ∧ (∀ p d, FsEvent.write p d ∉ (PwmChipAsync.exportFn chip number fs).2))
    ∧ (fs.channelDirExists = false → fs.createRes = .ok () →
      FsEvent.write (chipPath chip ++ "/export") (u32ToString number) ∈
        (PwmChip.exportFn chip number fs).2
      ∧ FsEvent.write (chipPath chip ++ "/export") (u32ToString number) ∈
        (PwmChipAsync.exportFn chip number fs).2)
    ∧ (fs.channelDirExists = false →
      (PwmChip.unexportFn chip number fs).1 = .ok ()
      ∧ (∀ p d, FsEvent.write p d ∉ (PwmChip.unexportFn chip number fs).2)
      ∧ (PwmChipAsync.unexportFn chip number fs).1 = .ok ()
      ∧ (∀ p d, FsEvent.write p d ∉ (PwmChipAsync.unexportFn chip number fs).2))
    ∧ (fs.channelDirExists = true → fs.createRes = .ok () →
      FsEvent.write (chipPath chip ++ "/unexport") (u32ToString number) ∈
        (PwmChip.unexportFn chip number fs).2
      ∧ FsEvent.write (chipPath chip ++ "/unexport") (u32ToString number) ∈
        (PwmChipAsync.unexportFn chip number fs).2) := by
  obtain ⟨dir, cr, wr⟩ := fs
  cases dir <;> obtain ⟨⟩ | cerr := cr <;>
    refine ⟨?_, ?_, ?_, ?_⟩ <;> intros <;>
    simp_all [PwmChip.exportFn, PwmChip.unexportFn,
      PwmChipAsync.exportFn, PwmChipAsync.unexportFn]

/-- Witness for C2 at a concrete chip, channel and filesystem state. -/
theorem export_unexport_idempotent_witness :
    (PwmChip.exportFn 0 1 ⟨true, .ok (), .ok ()⟩).1 = .ok ()
    ∧ FsEvent.write (chipPath 0 ++ "/export") (u32ToString 1) ∈
        (PwmChip.exportFn 0 1 ⟨false, .ok (), .ok ()⟩).2 := by
  refine ⟨((export_unexport_idempotent 0 1 ⟨true, .ok (), .ok ()⟩).1 rfl).1, ?_⟩
  exact ((export_unexport_idempotent 0 1 ⟨false, .ok (), .ok ()⟩).2.1 rfl rfl).1

/-- C8: Pwm::new only probes the chip directory: it succeeds exactly when
the metadata probe succeeds, propagates the probe failure unchanged,
performs no export and no write, and never inspects the channel number
(its trace is the single chip-directory probe for every channel number). -/
theorem pwm_new_validates_chip_only (chip number : Nat)
    (md : Except Error Unit) :
    (md = .ok () →
      Pwm.newFn chip number md = (.ok ⟨⟨chip⟩, number⟩, [.probe (chipPath chip)]))
    ∧ (∀ e, md = .error e →
      Pwm.newFn chip number md = (.error e, [.probe (chipPath chip)]))
    ∧ (Pwm.newFn chip number md).2 = [FsEvent.probe (chipPath chip)]
    ∧ (∀ p d, FsEvent.write p d ∉ (Pwm.newFn chip number md).2) := by
  obtain ⟨⟩ | e := md <;>
    refine ⟨?_, ?_, ?_, ?_⟩ <;> intros <;>
    simp_all [Pwm.newFn, PwmChip.newFn]

/-- Witness for C8 at a concrete chip, channel and probe outcome. -/
theorem pwm_new_validates_chip_only_witness :
    Pwm.newFn 0 5 (.ok ()) = (.ok ⟨⟨0⟩, 5⟩, [.probe (chipPath 0)]) :=
  (pwm_new_validates_chip_only 0 5 (.ok ())).1 rfl

/-- C7: set_polarity writes exactly "normal" for Normal and "inversed" for
Inverse; get_polarity maps trimmed "normal" to Normal, trimmed "inversed" to
Inverse and anything else to a decode failure, in both variants; hence
decoding the text written for a polarity yields that polarity. -/
theorem polarity_roundtrip (p : Polarity) (s : String) :
    Pwm.set_polarity_data Polarity.Normal = "normal"
    ∧ Pwm.set_polarity_data Polarity.Inverse = "inversed"
    ∧ Pwm.get_polarity (Pwm.set_polarity_data p) = .ok p
    ∧ (rustTrim s = "normal" → Pwm.get_polarity s = .ok .Normal)
    ∧ (rustTrim s = "inversed" → Pwm.get_polarity s = .ok .Inverse)
    ∧ (rustTrim s ≠ "normal" → rustTrim s ≠ "inversed" →
        Pwm.get_polarity s =
          .error (.unexpected ("Unexpected polarity file contents: " ++ rustDebug s)))
    ∧ PwmAsync.get_polarity s = Pwm.get_polarity s
    ∧ PwmAsync.get_polarity (Pwm.set_polarity_data p) = .ok p := by
  refine ⟨rfl, rfl, ?_, ?_, ?_, ?_, rfl, ?_⟩
  · cases p <;> rfl
  · intro h; simp [Pwm.get_polarity, h]
  · intro h; simp [Pwm.get_polarity, h]
  · intro h1 h2; simp [Pwm.get_polarity, h1, h2]
  · cases p <;> rfl

/-- Witness for C7: the enumerated round-trip at Inverse and the decode of a
newline-terminated "normal". -/
theorem polarity_roundtrip_witness :
    Pwm.get_polarity (Pwm.set_polarity_data .Inverse) = .ok .Inverse
    ∧ Pwm.get_polarity "normal\n" = .ok .Normal := by
  have h := polarity_roundtrip .Inverse "normal\n"
  exact ⟨h.2.2.1, h.2.2.2.1 (by decide)⟩

/-- C3 (code divergence): the blocking PwmChip::count trims the npwm content
before parsing while the async PwmChipAsync::count parses it untrimmed, so
the newline-terminated content an npwm attribute actually carries is
accepted by the blocking variant and rejected by the async one. -/
theorem count_variants_disagree :
    PwmChip.count "3\n" = .ok 3
    ∧ PwmChipAsync.count "3\n" =
        .error (.unexpected ("Unexpected npwm contents: " ++ rustDebug "3\n"))
    ∧ PwmChipAsync.count "3" = .ok 3 := ⟨rfl, rfl, rfl⟩

/-- C5 counterexample: on enable file content "2" the blocking get_enabled
does not return a decode failure (or any error value at all): it hits the
panic branch. -/
theorem get_enabled_not_decode_failure :
    ¬ (∃ e, Pwm.get_enabled "2" = Outcome.err e) := by
  rintro ⟨e, h⟩
  have h2 : Pwm.get_enabled "2" =
      Outcome.panicked "enable != 1|0 should be unreachable" := rfl
  rw [h2] at h
  exact Outcome.noConfusion h

/-- C5 amended: for enable content whose trimmed form is neither "1" nor
"0", the blocking get_enabled panics rather than returning a typed failure;
the async variant returns a decode failure only when the trimmed content
does not parse as u32, and panics when it parses to a value other than 0
or 1. -/
theorem get_enabled_panics (s : String)
    (h1 : rustTrim s ≠ "1") (h0 : rustTrim s ≠ "0") :
    Pwm.get_enabled s = .panicked "enable != 1|0 should be unreachable"
    ∧ (parseU32 (rustTrim s) = none →
        PwmAsync.get_enabled s =
          .err (.unexpected ("Unexpeted value file contents: " ++ rustDebug s)))
    ∧ (∀ n, parseU32 (rustTrim s) = some n → n ≠ 0 → n ≠ 1 →
        PwmAsync.get_enabled s = .panicked "enable != 1|0 should be unreachable") := by
  refine ⟨by simp [Pwm.get_enabled, h1, h0], ?_, ?_⟩
  · intro h
    simp [PwmAsync.get_enabled, h]
  · intro n hn hn0 hn1
    unfold PwmAsync.get_enabled
    rw [hn]
    obtain _ | _ | n := n
    · exact absurd rfl hn0
    · exact absurd rfl hn1
    · rfl

/-- Witness for C5 amended, at content "2": both variants panic. -/
theorem get_enabled_panics_witness :
    Pwm.get_enabled "2" = .panicked "enable != 1|0 should be unreachable"
    ∧ PwmAsync.get_enabled "2" = .panicked "enable != 1|0 should be unreachable" := by
  have h := get_enabled_panics "2" (by decide) (by decide)
  exact ⟨h.1, h.2.2 2 (by decide) (by decide) (by decide)⟩

/-- C4: the capture decode drops unparseable tokens while preserving the
order of the survivors (the push loop equals filterMap of the u32 parser
over the whitespace split), and get_capture returns the pair of the two
survivors exactly when two tokens survive, every other surviving count
being a decode failure. -/
theorem get_capture_pair (content : String) :
    pwm_file_parse_vec content =
      (splitWhitespaceRust (rustTrim content)).filterMap parseU32
    ∧ (∀ a b, pwm_file_parse_vec content = [a, b] →
        Pwm.get_capture content = .ok (a, b))
    ∧ ((pwm_file_parse_vec content).length ≠ 2 →
        Pwm.get_capture content = .error (.unexpected "Failed exporting"))
    ∧ (∀ a b, Pwm.get_capture content = .ok (a, b) →
        pwm_file_parse_vec content = [a, b]) := by
  refine ⟨parseVecLoop_eq_filterMap _, ?_, ?_, ?_⟩
  · intro a b h
    simp [Pwm.get_capture, h]
  · intro h
    unfold Pwm.get_capture
    rcases hv : pwm_file_parse_vec content with _ | ⟨a, _ | ⟨b, _ | t⟩⟩ <;>
      simp_all
  · intro a b h
    unfold Pwm.get_capture at h
    rcases hv : pwm_file_parse_vec content with _ | ⟨x, _ | ⟨y, _ | t⟩⟩ <;>
      rw [hv] at h <;> simp_all

/-- Witness for C4 at the spec example content. -/
theorem get_capture_pair_witness :
    Pwm.get_capture "1000000 250000" = .ok (1000000, 250000)
    ∧ Pwm.get_capture "1000000" = .error (.unexpected "Failed exporting") := by
  refine ⟨(get_capture_pair "1000000 250000").2.1 1000000 250000 rfl, ?_⟩
  exact (get_capture_pair "1000000").2.2.1 (by decide)

theorem foldl_step_le (cs : List Char) : ∀ acc : Nat,
    acc ≤ cs.foldl (fun a c => a * 10 + (c.toNat - 48)) acc := by
  induction cs with
  | nil => intro acc; simp
  | cons c t ih =>
    intro acc
    have h1 : acc ≤ acc * 10 + (c.toNat - 48) := by omega
    calc acc ≤ acc * 10 + (c.toNat - 48) := h1
    _ ≤ t.foldl (fun a c => a * 10 + (c.toNat - 48)) (acc * 10 + (c.toNat - 48)) := ih _
    _ = (c :: t).foldl (fun a c => a * 10 + (c.toNat - 48)) acc := by simp

theorem parseU32Core_all_digits (cs : List Char) : ∀ acc : Nat,
    (∀ c ∈ cs, isDigitChar c = true) →
    cs.foldl (fun a c => a * 10 + (c.toNat - 48)) acc < 2 ^ 32 →
    parseU32Core cs acc = some (cs.foldl (fun a c => a * 10 + (c.toNat - 48)) acc) := by
  induction cs with
  | nil => intro acc _ _; rfl
  | cons c t ih =>
    intro acc h hb
    have hc : isDigitChar c = true := h c (by simp)
    have hfold : (c :: t).foldl (fun a c => a * 10 + (c.toNat - 48)) acc =
        t.foldl (fun a c => a * 10 + (c.toNat - 48)) (acc * 10 + (c.toNat - 48)) := by simp
    have hlt : acc * 10 + (c.toNat - 48) < 2 ^ 32 := by
      have := foldl_step_le t (acc * 10 + (c.toNat - 48))
      rw [hfold] at hb
      omega
    simp only [parseU32Core, hc, if_true, if_pos hlt]
    rw [hfold]
    exact ih _ (fun d hd => h d (by simp [hd])) (by rw [hfold] at hb; exact hb)

theorem parseU32Core_none_of_bad (cs : List Char) : ∀ acc : Nat, ∀ c ∈ cs,
    isDigitChar c = false → parseU32Core cs acc = none := by
  induction cs with
  | nil => intro acc c hc; simp at hc
  | cons d t ih =>
    intro acc c hc hbad
    by_cases hd : isDigitChar d = true
    · have hct : c ∈ t := by
        rcases List.mem_cons.mp hc with h | h
        · subst h; rw [hd] at hbad; cases hbad
        · exact h
      simp only [parseU32Core, hd, if_true]
      by_cases hlt : acc * 10 + (d.toNat - 48) < 2 ^ 32
      · rw [if_pos hlt]; exact ih _ c hct hbad
      · rw [if_neg hlt]
    · have hd' : isDigitChar d = false := by revert hd; cases isDigitChar d <;> simp
      simp [parseU32Core, hd']

theorem parseU32Core_none_of_overflow (cs : List Char) : ∀ acc : Nat,
    acc < 2 ^ 32 →
    cs.foldl (fun a c => a * 10 + (c.toNat - 48)) acc ≥ 2 ^ 32 →
    parseU32Core cs acc = none := by
  induction cs with
  | nil => intro acc hlt hge; simp at hge; omega
  | cons c t ih =>
    intro acc hlt hge
    have hfold : (c :: t).foldl (fun a c => a * 10 + (c.toNat - 48)) acc =
        t.foldl (fun a c => a * 10 + (c.toNat - 48)) (acc * 10 + (c.toNat - 48)) := by simp
    by_cases hc : isDigitChar c = true
    · simp only [parseU32Core, hc, if_true]
      by_cases hlt' : acc * 10 + (c.toNat - 48) < 2 ^ 32
      · rw [if_pos hlt']
        exact ih _ hlt' (by rw [hfold] at hge; exact hge)
      · rw [if_neg hlt']
    · have hc' : isDigitChar c = false := by revert hc; cases isDigitChar c <;> simp
      simp [parseU32Core, hc']

theorem char_digit_spec (m : Nat) (hm : m < 10) :
    (Char.ofNat (48 + m)).toNat = 48 + m ∧ isDigitChar (Char.ofNat (48 + m)) = true := by
  interval_cases m <;> exact ⟨by decide, by decide⟩

theorem digitsToNat_append_digit (xs : List Char) (c : Char) :
    digitsToNat (xs ++ [c]) = digitsToNat xs * 10 + (c.toNat - 48) := by
  simp [digitsToNat, List.foldl_append]

theorem natToDecimalAux_spec (fuel : Nat) : ∀ n : Nat, n < fuel →
    (∀ c ∈ natToDecimalAux fuel n, isDigitChar c = true)
    ∧ natToDecimalAux fuel n ≠ []
    ∧ digitsToNat (natToDecimalAux fuel n) = n := by
  induction fuel with
  | zero => intro n h; omega
  | succ fuel ih =>
    intro n hn
    by_cases h10 : n < 10
    · have hc := char_digit_spec n h10
      simp only [natToDecimalAux, if_pos h10]
      refine ⟨?_, by simp, ?_⟩
      · intro c hcmem
        simp only [List.mem_singleton] at hcmem
        subst hcmem
        exact hc.2
      · simp only [digitsToNat, List.foldl_cons, List.foldl_nil]
        omega
    · have hdiv : n / 10 < fuel := by omega
      obtain ⟨hdig, hne, hval⟩ := ih (n / 10) hdiv
      have hc := char_digit_spec (n % 10) (by omega)
      simp only [natToDecimalAux, if_neg h10]
      refine ⟨?_, by simp, ?_⟩
      · intro c hcmem
        rcases List.mem_append.mp hcmem with h | h
        · exact hdig c h
        · simp only [List.mem_singleton] at h
          subst h
          exact hc.2
      · rw [digitsToNat_append_digit, hval, hc.1]
        omega

theorem natToDecimal_spec (n : Nat) :
    (∀ c ∈ natToDecimal n, isDigitChar c = true)
    ∧ natToDecimal n ≠ []
    ∧ digitsToNat (natToDecimal n) = n :=
  natToDecimalAux_spec (n + 1) n (by omega)

theorem digit_ne_plus {c : Char} (h : isDigitChar c = true) : ¬ (c = '+') := by
  intro hc
  subst hc
  simp [isDigitChar] at h

theorem parseU32List_digits (ds : List Char) (hne : ds ≠ [])
    (hdig : ∀ c ∈ ds, isDigitChar c = true)
    (hb : digitsToNat ds < 2 ^ 32) :
    parseU32List ds = some (digitsToNat ds) := by
  obtain ⟨c, t, rfl⟩ := List.exists_cons_of_ne_nil hne
  have hc : isDigitChar c = true := hdig c (by simp)
  simp only [parseU32List, if_neg (digit_ne_plus hc)]
  exact parseU32Core_all_digits (c :: t) 0 hdig hb

theorem parseU32List_none_of_bad (cs : List Char) (c : Char)
    (hc : c ∈ stripPlusList cs) (hbad : isDigitChar c = false) :
    parseU32List cs = none := by
  match cs with
  | [] => rfl
  | d :: t =>
    by_cases hd : d = '+'
    · subst hd
      simp only [stripPlusList, if_pos rfl] at hc
      simp only [parseU32List, if_pos rfl]
      have ht : t ≠ [] := by rintro rfl; simp at hc
      rw [if_neg ht]
      exact parseU32Core_none_of_bad t 0 c hc hbad
    · simp only [stripPlusList, if_neg hd] at hc
      simp only [parseU32List, if_neg hd]
      exact parseU32Core_none_of_bad (d :: t) 0 c hc hbad

theorem parseU32List_none_of_overflow (cs : List Char)
    (hdig : ∀ c ∈ cs, isDigitChar c = true)
    (hb : digitsToNat cs ≥ 2 ^ 32) :
    parseU32List cs = none := by
  match cs with
  | [] => rfl
  | d :: t =>
    have hd : isDigitChar d = true := hdig d (by simp)
    simp only [parseU32List, if_neg (digit_ne_plus hd)]
    exact parseU32Core_none_of_overflow (d :: t) 0 (by omega) hb

theorem digit_not_ws {c : Char} (h : isDigitChar c = true) :
    isRustWhitespace c = false := by
  simp only [isDigitChar, Bool.and_eq_true, decide_eq_true_eq] at h
  simp only [isRustWhitespace, Bool.or_eq_false_iff, Bool.and_eq_false_iff,
    decide_eq_false_iff_not]
  omega

theorem dropWhile_append_all {p : Char → Bool} {l : List Char} (xs : List Char)
    (h : ∀ c ∈ l, p c = true) :
    (l ++ xs).dropWhile p = xs.dropWhile p := by
  induction l with
  | nil => rfl
  | cons c t ih =>
    simp only [List.cons_append, List.dropWhile_cons_of_pos (h c (by simp))]
    exact ih (fun d hd => h d (by simp [hd]))

theorem dropWhile_digits {ds : List Char}
    (hdig : ∀ c ∈ ds, isDigitChar c = true) :
    ds.dropWhile isRustWhitespace = ds := by
  match ds with
  | [] => rfl
  | c :: t =>
    exact List.dropWhile_cons_of_neg (by simp [digit_not_ws (hdig c (by simp))])

theorem rustTrimList_padded (l ds r : List Char)
    (hl : ∀ c ∈ l, isRustWhitespace c = true)
    (hr : ∀ c ∈ r, isRustWhitespace c = true)
    (hdig : ∀ c ∈ ds, isDigitChar c = true) (hne : ds ≠ []) :
    rustTrimList (l ++ ds ++ r) = ds := by
  unfold rustTrimList
  rw [List.append_assoc, dropWhile_append_all _ hl]
  obtain ⟨c, t, rfl⟩ := List.exists_cons_of_ne_nil hne
  rw [List.cons_append,
    List.dropWhile_cons_of_neg (by simp [digit_not_ws (hdig c (by simp))]),
    ← List.cons_append, List.reverse_append,
    dropWhile_append_all _ (fun d hd => hr _ (List.mem_reverse.mp hd)),
    dropWhile_digits (fun d hd => hdig _ (List.mem_reverse.mp hd))]
  simp

theorem rustTrimList_digits {ds : List Char}
    (hdig : ∀ c ∈ ds, isDigitChar c = true) (hne : ds ≠ []) :
    rustTrimList ds = ds := by
  have h := rustTrimList_padded [] ds [] (by simp) (by simp) hdig hne
  simpa using h

theorem pwm_file_parse_of_parse_some {s : String} {v : Nat}
    (h : parseU32List (rustTrimList s.data) = some v) :
    pwm_file_parse s = .ok v := by
  unfold pwm_file_parse
  have h' : parseU32 (rustTrim s) = some v := h
  rw [h']

theorem pwm_file_parse_of_parse_none {s : String}
    (h : parseU32List (rustTrimList s.data) = none) :
    pwm_file_parse s =
      .error (.unexpected ("Unexpeted value file contents: " ++ rustDebug s)) := by
  unfold pwm_file_parse
  have h' : parseU32 (rustTrim s) = none := h
  rw [h']

/-- C6: decimal encoding by set_period_ns / set_duty_cycle_ns followed by
the integer decode of get_period_ns / get_duty_cycle_ns returns the value
exactly; the decode also succeeds with extra surrounding whitespace, and
fails on empty, non-numeric, and u32-overflowing trimmed content. -/
theorem u32_text_roundtrip (v : Nat) (hv : v < 2 ^ 32) :
    Pwm.get_period_ns (Pwm.set_period_ns_data v) = .ok v
    ∧ Pwm.get_duty_cycle_ns (Pwm.set_duty_cycle_ns_data v) = .ok v
    ∧ (∀ l r : List Char, (∀ c ∈ l, isRustWhitespace c = true) →
        (∀ c ∈ r, isRustWhitespace c = true) →
        pwm_file_parse ⟨l ++ (u32ToString v).data ++ r⟩ = .ok v)
    ∧ (∀ s : String, rustTrimList s.data = [] →
        pwm_file_parse s =
          .error (.unexpected ("Unexpeted value file contents: " ++ rustDebug s)))
    ∧ (∀ s : String, ∀ c ∈ stripPlusList (rustTrimList s.data),
        isDigitChar c = false →
        pwm_file_parse s =
          .error (.unexpected ("Unexpeted value file contents: " ++ rustDebug s)))
    ∧ (∀ s : String, (∀ c ∈ rustTrimList s.data, isDigitChar c = true) →
        digitsToNat (rustTrimList s.data) ≥ 2 ^ 32 →
        pwm_file_parse s =
          .error (.unexpected ("Unexpeted value file contents: " ++ rustDebug s))) := by
  obtain ⟨hdig, hne, hval⟩ := natToDecimal_spec v
  have hparse : parseU32List (natToDecimal v) = some v := by
    rw [parseU32List_digits _ hne hdig (by rw [hval]; exact hv), hval]
  have hmain : pwm_file_parse (u32ToString v) = .ok v := by
    apply pwm_file_parse_of_parse_some
    rw [show (u32ToString v).data = natToDecimal v from rfl,
      rustTrimList_digits hdig hne]
    exact hparse
  refine ⟨hmain, hmain, ?_, ?_, ?_, ?_⟩
  · intro l r hl hr
    apply pwm_file_parse_of_parse_some
    rw [show (⟨l ++ (u32ToString v).data ++ r⟩ : String).data =
      l ++ natToDecimal v ++ r from rfl]
    rw [rustTrimList_padded l _ r hl hr hdig hne]
    exact hparse
  · intro s h
    apply pwm_file_parse_of_parse_none
    rw [h]
    rfl
  · intro s c hc hbad
    exact pwm_file_parse_of_parse_none (parseU32List_none_of_bad _ c hc hbad)
  · intro s h1 h2
    exact pwm_file_parse_of_parse_none (parseU32List_none_of_overflow _ h1 h2)

/-- Witness for C6: round-trip at 5, whitespace-padded decode, and the
failure on empty content. -/
theorem u32_text_roundtrip_witness :
    Pwm.get_period_ns (Pwm.set_period_ns_data 5) = .ok 5
    ∧ pwm_file_parse ⟨[' '] ++ (u32ToString 5).data ++ ['\n']⟩ = .ok 5
    ∧ pwm_file_parse "" =
        .error (.unexpected ("Unexpeted value file contents: " ++ rustDebug "")) := by
  have h := u32_text_roundtrip 5 (by omega)
  exact ⟨h.1, h.2.2.1 [' '] ['\n'] (by decide) (by decide), h.2.2.2.1 "" rfl⟩
